import Mathlib

/-!
Verification development for the Account_Validation-PHC repository.

The definitions below are a shallow embedding of the client-side CSV
tokenization, validation and export logic found in `src/App.tsx`
(`robustParseCsvRow`, the parsing pipeline of `handleBulkUpload`, the
sequential bulk-verification loop, and `handleDownloadAllResults`), together
with the data model of `src/types.ts`.

Strings are modelled by Lean `String`, characters by `Char`; the character
level recursions work on `List Char` (the `data` of a `String`), which is
faithful to the source's index-by-index iteration over JavaScript strings.
JavaScript `trim`/`toLowerCase` are modelled on the ASCII range via
`Char.isWhitespace` and `Char.toLower`; all inputs relevant to the claims
are ASCII.
-/

namespace AccountValidation

/-- The four-field record of `src/types.ts` (`AccountDetails`). -/
structure AccountDetails where
  beneficiaryName : String
  bankName : String
  accountNumber : String
  bvn : String
deriving DecidableEq, Repr

/-- `VerificationResultData` of `src/types.ts`: `{success, message, data}`,
with `data : AccountDetails | null` modelled by `Option`. -/
structure VerificationResultData where
  success : Bool
  message : String
  data : Option AccountDetails
deriving DecidableEq, Repr

/-- JavaScript `String.prototype.trim` on the character list (ASCII model). -/
def trimChars (l : List Char) : List Char :=
  ((l.dropWhile Char.isWhitespace).reverse.dropWhile Char.isWhitespace).reverse

/-- JavaScript `String.prototype.trim` (ASCII model). -/
def trimS (s : String) : String := ⟨trimChars s.data⟩

/-- JavaScript `String.prototype.toLowerCase` (ASCII model). -/
def lowerS (s : String) : String := ⟨s.data.map Char.toLower⟩

/-- Character-level core of `robustParseCsvRow` (`src/App.tsx` lines 17-43):
the loop body carries the remaining input, the `inQuotes` flag and the
current cell accumulated in reverse.  A quote toggles `inQuotes` unless it
is an escaped pair `""` inside a quoted span; a comma outside quotes emits
the trimmed current cell; any other character (and a comma inside quotes)
is appended to the current cell; the last cell is emitted at end of input. -/
def parseRowAux : List Char → Bool → List Char → List (List Char)
  | [], _, cur => [trimChars cur.reverse]
  | c :: rest, inQ, cur =>
    if c = '"' then
      if inQ then
        match rest with
        | c2 :: rest2 =>
          if c2 = '"' then parseRowAux rest2 true ('"' :: cur)
          else parseRowAux (c2 :: rest2) false cur
        | [] => [trimChars cur.reverse]
      else parseRowAux rest true cur
    else if c = ',' then
      if inQ then parseRowAux rest inQ (',' :: cur)
      else trimChars cur.reverse :: parseRowAux rest inQ []
    else parseRowAux rest inQ (c :: cur)
termination_by structural l _ _ => l

/-- `robustParseCsvRow` of `src/App.tsx`: tokenize one CSV row into its
(trimmed) cells. -/
def robustParseCsvRow (row : String) : List String :=
  (parseRowAux row.data false []).map fun l => ⟨l⟩

/-- Split a character list at every occurrence of `sep`, accumulating the
current segment in reverse (used to model `String.prototype.split`). -/
def splitCharAux (sep : Char) : List Char → List Char → List (List Char)
  | [], cur => [cur.reverse]
  | c :: rest, cur =>
    if c = sep then cur.reverse :: splitCharAux sep rest []
    else splitCharAux sep rest (c :: cur)

/-- Split a character list at every occurrence of `sep`. -/
def splitChar (sep : Char) (l : List Char) : List (List Char) :=
  splitCharAux sep l []

/-- Drop one trailing carriage return, so that splitting on a newline and
then applying this models `text.split(/\r?\n/)` (a lone CR is not a line
separator for that regular expression). -/
def dropTrailingCR (l : List Char) : List Char :=
  match l.reverse with
  | '\r' :: rest => rest.reverse
  | _ => l

/-- `text.split(/\r?\n/).filter(line => line.trim() !== '')` from
`handleBulkUpload` (`src/App.tsx` line 101). -/
def toLines (text : String) : List String :=
  (((splitChar '\n' text.data).map dropTrailingCR).map fun l => (⟨l⟩ : String)).filter
    fun s => trimS s != ""

/-- The required header names of `handleBulkUpload` (`src/App.tsx` line 109). -/
def requiredHeaders : List String :=
  ["beneficiaryName", "bankName", "accountNumber", "bvn"]

/-- The header-map `reduce` of `src/App.tsx` lines 119-122, as a fold that
records `acc[col.trim()] = index` and lets a later column with the same
(trimmed) name overwrite an earlier one. -/
def headerIndexAux (field : String) : List String → Nat → Option Nat → Option Nat
  | [], _, acc => acc
  | col :: rest, i, acc =>
    headerIndexAux field rest (i + 1) (if trimS col = field then some i else acc)

/-- Look up a field name in the header map built from `header`; the result is
the index stored by the fold of `headerIndexAux` (the rightmost matching
column, if any). -/
def headerIndex (header : List String) (field : String) : Option Nat :=
  headerIndexAux field header 0 none

/-- `data[headerMap[field]] ?? ''`: an absent map entry, or an out-of-range
index, yields the empty string. -/
def getField (data : List String) : Option Nat → String
  | none => ""
  | some i => data.getD i ""

/-- The record constructed for one data row (`src/App.tsx` lines 135-140). -/
def buildAccount (header data : List String) : AccountDetails where
  beneficiaryName := getField data (headerIndex header "beneficiaryName")
  bankName := getField data (headerIndex header "bankName")
  accountNumber := getField data (headerIndex header "accountNumber")
  bvn := getField data (headerIndex header "bvn")

/-- `Object.values(account).some(val => val.trim() !== '')`
(`src/App.tsx` line 143). -/
def accountNonEmpty (a : AccountDetails) : Bool :=
  trimS a.beneficiaryName != "" || trimS a.bankName != "" ||
    trimS a.accountNumber != "" || trimS a.bvn != ""

/-- The structural error message pushed for a row with a mismatched cell
count (`src/App.tsx` line 131). -/
def rowErrMsg (rowNum expected actual : Nat) : String :=
  "Row " ++ toString rowNum ++ ": Mismatched column count. Expected " ++
    toString expected ++ ", but found " ++ toString actual ++ "."

/-- What one iteration of the `forEach` over data rows contributes
(`src/App.tsx` lines 127-146): a structural error, an accepted record, or
nothing (a completely empty row). -/
inductive RowResult where
  | err (msg : String)
  | record (a : AccountDetails)
  | blank
deriving DecidableEq, Repr

/-- One iteration of the `forEach` over data rows: `rowNum` is the 1-based
row number over the filtered lines with the header as row 1 (the source's
`index + 2`). -/
def rowStep (header : List String) (rowNum : Nat) (line : String) : RowResult :=
  let data := robustParseCsvRow line
  if data.length ≠ header.length then
    .err (rowErrMsg rowNum header.length data.length)
  else if accountNonEmpty (buildAccount header data) then
    .record (buildAccount header data)
  else
    .blank

/-- The `parsingErrors` array accumulated by the `forEach`
(`src/App.tsx` lines 125-146). -/
def structuralErrors (header : List String) (dataLines : List String) : List String :=
  dataLines.enum.filterMap fun p =>
    match rowStep header (p.1 + 2) p.2 with
    | .err m => some m
    | _ => none

/-- The `accountsToVerify` array accumulated by the `forEach`
(`src/App.tsx` lines 124-146). -/
def acceptedAccounts (header : List String) (dataLines : List String) : List AccountDetails :=
  dataLines.enum.filterMap fun p =>
    match rowStep header (p.1 + 2) p.2 with
    | .record a => some a
    | _ => none

/-- Index-free description of what one data row contributes to
`accountsToVerify`. -/
def recordOf (header : List String) (line : String) : Option AccountDetails :=
  let data := robustParseCsvRow line
  if data.length ≠ header.length then none
  else if accountNonEmpty (buildAccount header data) then some (buildAccount header data)
  else none

/-- The duplicate-detection key of `src/App.tsx` line 158:
trimmed account number and bank name joined by a dash, lowercased. -/
def dupKey (a : AccountDetails) : String :=
  lowerS (trimS a.accountNumber ++ "-" ++ trimS a.bankName)

/-- The keys entered into the `seen` map: every record's key except the
literal `"-"` key of a record whose account number and bank name are both
empty after trimming (`src/App.tsx` lines 156-162). -/
def keysOf (accounts : List AccountDetails) : List String :=
  (accounts.map dupKey).filter fun k => k != "-"

/-- The keys of the `seen` map in insertion order (a JavaScript `Map`
keeps the first insertion position of each key). -/
def firstOccurrencesAux : List String → List String → List String
  | [], _ => []
  | k :: ks, seen =>
    if seen.contains k then firstOccurrencesAux ks seen
    else k :: firstOccurrencesAux ks (k :: seen)

/-- First occurrence of every key, in order. -/
def firstOccurrences (l : List String) : List String :=
  firstOccurrencesAux l []

/-- `duplicates` of `src/App.tsx` lines 164-166: the keys whose count in the
`seen` map exceeds one, in first-insertion order. -/
def duplicateKeys (accounts : List AccountDetails) : List String :=
  (firstOccurrences (keysOf accounts)).filter fun k =>
    decide (1 < (keysOf accounts).count k)

/-- The rendering of one duplicate key in the error message
(`src/App.tsx` lines 169-172): the key is split at every dash and the first
two segments are printed (`const [acc, bank] = d.split('-')`). -/
def duplicateEntryText (d : String) : String :=
  "Account " ++ ((splitChar '-' d.data).map fun l => (⟨l⟩ : String)).getD 0 "" ++
    " at " ++ ((splitChar '-' d.data).map fun l => (⟨l⟩ : String)).getD 1 ""

/-- The duplicate error message of `src/App.tsx` line 173. -/
def duplicateMessage (accounts : List AccountDetails) : String :=
  "Duplicate entries found in the file. Please remove them and try again. Duplicates: " ++
    String.intercalate "; " ((duplicateKeys accounts).map duplicateEntryText) ++ "."

/-- The early-return failures of `handleBulkUpload` before the duplicate
check (`src/App.tsx` lines 95-153). -/
inductive ParseFailure where
  | fileError (msg : String)
  | emptyError (msg : String)
  | headerError (msg : String)
  | parseError (msg : String)
deriving DecidableEq, Repr

/-- The observable outcome of `handleBulkUpload`'s parsing and validation:
one of the five error modal messages, or the list of records handed to the
verification loop. -/
inductive BulkOutcome where
  | fileError (msg : String)
  | emptyError (msg : String)
  | headerError (msg : String)
  | parseError (msg : String)
  | duplicateError (msg : String)
  | accepted (accounts : List AccountDetails)
deriving DecidableEq, Repr

/-- Reinterpret a pre-duplicate-check failure as a `BulkOutcome`. -/
def ParseFailure.toOutcome : ParseFailure → BulkOutcome
  | .fileError m => .fileError m
  | .emptyError m => .emptyError m
  | .headerError m => .headerError m
  | .parseError m => .parseError m

/-- The tokenized header row (`src/App.tsx` line 108). -/
def headerOf (text : String) : List String :=
  robustParseCsvRow ((toLines text).getD 0 "")

/-- `missingHeaders` of `src/App.tsx` line 110. -/
def missingHeadersOf (text : String) : List String :=
  requiredHeaders.filter fun rh => !((headerOf text).contains rh)

/-- The data lines (`lines.slice(1)`). -/
def dataLinesOf (text : String) : List String :=
  (toLines text).drop 1

/-- The structural errors of the whole input. -/
def structuralErrorsOf (text : String) : List String :=
  structuralErrors (headerOf text) (dataLinesOf text)

/-- The records of the whole input that reach the duplicate check. -/
def acceptedOf (text : String) : List AccountDetails :=
  acceptedAccounts (headerOf text) (dataLinesOf text)

/-- The header error message of `src/App.tsx` line 113. -/
def headerErrorMessage (text : String) : String :=
  "Invalid CSV header. Missing required columns: " ++
    String.intercalate ", " (missingHeadersOf text) ++ "."

/-- The structural error message of `src/App.tsx` line 149. -/
def parseErrorMessage (text : String) : String :=
  "Could not parse the CSV file due to formatting issues:\n\n" ++
    String.intercalate "\n" (structuralErrorsOf text)

/-- Every stage of `handleBulkUpload` up to and including the structural
error check, with each early `return` modelled as an `Except.error`
(`src/App.tsx` lines 94-153). -/
def parseStage (text : String) : Except ParseFailure (List AccountDetails) :=
  if text = "" then .error (.fileError "Could not read the file.")
  else if (toLines text).length ≤ 1 then
    .error (.emptyError "CSV file is empty or contains only a header.")
  else if missingHeadersOf text ≠ [] then
    .error (.headerError (headerErrorMessage text))
  else if structuralErrorsOf text ≠ [] then
    .error (.parseError (parseErrorMessage text))
  else .ok (acceptedOf text)

/-- The full parsing and validation pipeline of `handleBulkUpload`,
including the duplicate check (`src/App.tsx` lines 94-177): the result is
either an error modal message or the records submitted for verification. -/
def handleBulkUpload (text : String) : BulkOutcome :=
  match parseStage text with
  | .error e => e.toOutcome
  | .ok accounts =>
    if duplicateKeys accounts ≠ [] then .duplicateError (duplicateMessage accounts)
    else .accepted accounts

/-- A value thrown by a failing verification call: either an `Error`
instance carrying a message, or anything else. -/
inductive JsThrown where
  | errObj (message : String)
  | nonError
deriving DecidableEq, Repr

/-- `err instanceof Error ? err.message : 'An unknown error occurred.'`
(`src/App.tsx` line 189). -/
def thrownMessage : JsThrown → String
  | .errObj m => m
  | .nonError => "An unknown error occurred."

/-- The sequential verification loop of `src/App.tsx` lines 183-192: each
record is verified in input order; a rejected call contributes a failed
outcome carrying the submitted record and the error-derived message. -/
def runBulkVerification (verify : AccountDetails → Except JsThrown VerificationResultData)
    (accounts : List AccountDetails) : List VerificationResultData :=
  accounts.map fun a =>
    match verify a with
    | .ok r => r
    | .error e => ⟨false, thrownMessage e, some a⟩

/-- `field.replace(/"/g, '""')` at the character level
(`src/App.tsx` line 238). -/
def doubleQuotesL : List Char → List Char
  | [] => []
  | c :: rest =>
    if c = '"' then '"' :: '"' :: doubleQuotesL rest
    else c :: doubleQuotesL rest

/-- `/[",\n]/.test(...)` (`src/App.tsx` line 239). -/
def hasSpecialL (l : List Char) : Bool :=
  l.any fun c => c = '"' || c = ',' || c = '\n'

/-- `formatCsvField` of `src/App.tsx` lines 237-240: double every quote,
then wrap in quotes when the cleaned field contains a quote, a comma or a
newline. -/
def formatCsvField (field : String) : String :=
  if hasSpecialL (doubleQuotesL field.data) then
    "\"" ++ (⟨doubleQuotesL field.data⟩ : String) ++ "\""
  else (⟨doubleQuotesL field.data⟩ : String)

/-- `r.success ? 'Success' : 'Failed'` (`src/App.tsx` line 247). -/
def statusString (b : Bool) : String :=
  if b then "Success" else "Failed"

/-- The six fields emitted for one outcome row by `handleDownloadAllResults`
(`src/App.tsx` lines 242-249): the four data columns and the status column
are emitted raw; only the message column goes through `formatCsvField`. -/
def allResultsFields (r : VerificationResultData) : List String :=
  [(r.data.map AccountDetails.beneficiaryName).getD "",
   (r.data.map AccountDetails.bankName).getD "",
   (r.data.map AccountDetails.accountNumber).getD "",
   (r.data.map AccountDetails.bvn).getD "",
   statusString r.success,
   formatCsvField r.message]

/-- One serialized row of the all-results export (`.join(',')`). -/
def serializeAllRow (r : VerificationResultData) : String :=
  String.intercalate "," (allResultsFields r)

/-- The full all-results export text of `handleDownloadAllResults`
(`src/App.tsx` lines 229-252). -/
def handleDownloadAllResults (results : List VerificationResultData) : String :=
  String.intercalate "\n"
    (String.intercalate ","
        ["beneficiaryName", "bankName", "accountNumber", "bvn", "status", "message"] ::
      results.map serializeAllRow)

/-- JavaScript `Array.prototype.join` with a one-character separator, at the
character level (used to state the tokenize-then-rejoin property). -/
def joinChar (sep : Char) : List (List Char) → List Char
  | [] => []
  | [s] => s
  | s :: ss => s ++ sep :: joinChar sep ss

/-- `robustParseCsvRow` at the character level (the `String` version maps
`String.mk` over this). -/
def robustParseCsvRowChars (row : List Char) : List (List Char) :=
  parseRowAux row false []

/-!  Helper lemmas. -/

theorem splitCharAux_ne_nil (sep : Char) (l : List Char) :
    ∀ cur, splitCharAux sep l cur ≠ [] := by
  induction l with
  | nil => intro cur; simp [splitCharAux]
  | cons c rest ih =>
    intro cur
    by_cases h : c = sep
    · simp [splitCharAux, h]
    · simpa [splitCharAux, h] using ih (c :: cur)

theorem joinChar_cons_of_ne_nil (sep : Char) (s : List Char) {ss : List (List Char)}
    (h : ss ≠ []) : joinChar sep (s :: ss) = s ++ sep :: joinChar sep ss := by
  cases ss with
  | nil => exact absurd rfl h
  | cons t ts => rfl

/-- Rejoining the comma-split of a character list recovers it. -/
theorem joinChar_splitCharAux (sep : Char) (l : List Char) :
    ∀ cur, joinChar sep (splitCharAux sep l cur) = cur.reverse ++ l := by
  induction l with
  | nil => intro cur; simp [splitCharAux, joinChar]
  | cons c rest ih =>
    intro cur
    by_cases h : c = sep
    · rw [show splitCharAux sep (c :: rest) cur =
            cur.reverse :: splitCharAux sep rest [] by simp [splitCharAux, h],
        joinChar_cons_of_ne_nil sep _ (splitCharAux_ne_nil sep rest []),
        ih []]
      simp [h]
    · rw [show splitCharAux sep (c :: rest) cur = splitCharAux sep rest (c :: cur) by
          simp [splitCharAux, h],
        ih (c :: cur)]
      simp

/-- An escaped quote pair inside a quoted span contributes one literal quote
and keeps the in-quotes state. -/
theorem parseRowAux_escaped_pair (rest cur : List Char) :
    parseRowAux ('"' :: '"' :: rest) true cur = parseRowAux rest true ('"' :: cur) := rfl

/-- A quote inside a quoted span that is not followed by a second quote
toggles the state off and contributes nothing. -/
theorem parseRowAux_quote_close (c : Char) (rest cur : List Char) (h : c ≠ '"') :
    parseRowAux ('"' :: c :: rest) true cur = parseRowAux (c :: rest) false cur := by
  simp [parseRowAux, h]

/-- A quote outside a quoted span toggles the state on, regardless of the
following character. -/
theorem parseRowAux_quote_open (rest cur : List Char) :
    parseRowAux ('"' :: rest) false cur = parseRowAux rest true cur := by
  cases rest <;> rfl

/-- A comma outside a quoted span emits the current cell. -/
theorem parseRowAux_comma_outside (rest cur : List Char) :
    parseRowAux (',' :: rest) false cur =
      trimChars cur.reverse :: parseRowAux rest false [] := by
  cases rest <;> rfl

/-- Any character other than a quote or an unquoted comma is appended to the
current cell. -/
theorem parseRowAux_other (c : Char) (rest cur : List Char) (inQ : Bool)
    (hq : c ≠ '"') (hcomma : c ≠ ',') :
    parseRowAux (c :: rest) inQ cur = parseRowAux rest inQ (c :: cur) := by
  cases inQ <;> cases rest <;> simp [parseRowAux, hq, hcomma]

/-- On a row with no quote character the tokenizer is exactly
comma-splitting followed by per-cell trimming. -/
theorem parseRowAux_no_quote (l : List Char) :
    ∀ cur, (∀ c ∈ l, c ≠ '"') →
      parseRowAux l false cur = (splitCharAux ',' l cur).map trimChars := by
  induction l with
  | nil => intro cur _; simp [parseRowAux, splitCharAux]
  | cons c rest ih =>
    intro cur h
    have hc : c ≠ '"' := h c (List.mem_cons_self c rest)
    have hrest : ∀ x ∈ rest, x ≠ '"' := fun x hx => h x (List.mem_cons_of_mem c hx)
    by_cases hcomma : c = ','
    · subst hcomma
      rw [parseRowAux_comma_outside, ih [] hrest]
      simp [splitCharAux]
    · rw [parseRowAux_other c rest cur false hc hcomma, ih (c :: cur) hrest]
      simp [splitCharAux, hcomma]

theorem map_trim_eq_self {l : List (List Char)} (h : ∀ s ∈ l, trimChars s = s) :
    l.map trimChars = l := by
  induction l with
  | nil => rfl
  | cons s t ih => simp_all

theorem rowStep_record_eq (header : List String) (n : Nat) (line : String) :
    (match rowStep header n line with
      | .record a => some a
      | _ => none) = recordOf header line := by
  unfold rowStep recordOf
  by_cases h1 : (robustParseCsvRow line).length ≠ header.length
  · simp [h1]
  · by_cases h2 : accountNonEmpty (buildAccount header (robustParseCsvRow line)) <;>
      simp [h1, h2]

theorem acceptedAccounts_eq_filterMap (header : List String) (dls : List String) :
    acceptedAccounts header dls = dls.filterMap (recordOf header) := by
  unfold acceptedAccounts
  have h : (fun p : Nat × String =>
      (match rowStep header (p.1 + 2) p.2 with
        | .record a => some a
        | _ => none)) = recordOf header ∘ Prod.snd := by
    funext p
    exact rowStep_record_eq header (p.1 + 2) p.2
  rw [h, ← List.filterMap_map, List.enum_map_snd]

theorem structuralErrors_eq (header : List String) (dls : List String) :
    structuralErrors header dls = dls.enum.filterMap (fun p =>
      if (robustParseCsvRow p.2).length ≠ header.length then
        some (rowErrMsg (p.1 + 2) header.length (robustParseCsvRow p.2).length)
      else none) := by
  unfold structuralErrors
  congr 1
  funext p
  unfold rowStep
  by_cases h1 : (robustParseCsvRow p.2).length ≠ header.length
  · simp [h1]
  · by_cases h2 : accountNonEmpty (buildAccount header (robustParseCsvRow p.2)) <;>
      simp [h1, h2]

theorem mem_firstOccurrencesAux (x : String) : ∀ (l seen : List String),
    x ∈ firstOccurrencesAux l seen ↔ x ∈ l ∧ x ∉ seen := by
  intro l
  induction l with
  | nil => intro seen; simp [firstOccurrencesAux]
  | cons k ks ih =>
    intro seen
    by_cases hk : k ∈ seen
    · rw [show firstOccurrencesAux (k :: ks) seen = firstOccurrencesAux ks seen by
          simp [firstOccurrencesAux, hk], ih seen]
      constructor
      · rintro ⟨h1, h2⟩; exact ⟨List.mem_cons_of_mem _ h1, h2⟩
      · rintro ⟨h1, h2⟩
        rcases List.mem_cons.1 h1 with h3 | h3
        · exact absurd (h3 ▸ hk) h2
        · exact ⟨h3, h2⟩
    · rw [show firstOccurrencesAux (k :: ks) seen = k :: firstOccurrencesAux ks (k :: seen) by
          simp [firstOccurrencesAux, hk]]
      by_cases hx : x = k
      · subst hx
        simp [hk]
      · simp only [List.mem_cons, ih (k :: seen)]
        constructor
        · rintro (h1 | ⟨h1, h2⟩)
          · exact absurd h1 hx
          · exact ⟨Or.inr h1, fun hmem => h2 (Or.inr hmem)⟩
        · rintro ⟨h1 | h1, h2⟩
          · exact absurd h1 hx
          · exact Or.inr ⟨h1, fun hmem => hmem.elim hx h2⟩

theorem mem_firstOccurrences (x : String) (l : List String) :
    x ∈ firstOccurrences l ↔ x ∈ l := by
  simpa using mem_firstOccurrencesAux x l []

/-- The duplicate list of the `seen` map is empty exactly when the recorded
keys are pairwise distinct. -/
theorem duplicateKeys_eq_nil_iff (accounts : List AccountDetails) :
    duplicateKeys accounts = [] ↔ (keysOf accounts).Nodup := by
  unfold duplicateKeys
  rw [List.filter_eq_nil_iff]
  constructor
  · intro h
    rw [List.nodup_iff_count_le_one]
    intro a
    by_cases ha : a ∈ keysOf accounts
    · have := h a ((mem_firstOccurrences a _).2 ha)
      simp only [decide_eq_true_eq] at this
      omega
    · rw [List.count_eq_zero_of_not_mem ha]
      omega
  · intro h a ha
    rw [List.nodup_iff_count_le_one] at h
    simp only [decide_eq_true_eq]
    have := h a
    omega

theorem lowerS_append (x y : String) : lowerS (x ++ y) = lowerS x ++ lowerS y := by
  unfold lowerS
  apply congrArg String.mk
  rw [String.data_append, List.map_append]

/-- Records that agree on the trimmed, lowercased account number and bank
name produce the same duplicate-detection key. -/
theorem dupKey_eq_of_pair_eq (a b : AccountDetails)
    (h1 : lowerS (trimS a.accountNumber) = lowerS (trimS b.accountNumber))
    (h2 : lowerS (trimS a.bankName) = lowerS (trimS b.bankName)) :
    dupKey a = dupKey b := by
  unfold dupKey
  rw [lowerS_append, lowerS_append, lowerS_append, lowerS_append, h1, h2]

theorem trimS_getField (data : List String) (hcells : ∀ cell ∈ data, trimS cell = "")
    (idx : Option Nat) : trimS (getField data idx) = "" := by
  cases idx with
  | none => rfl
  | some i =>
    show trimS (data.getD i "") = ""
    rcases h : data[i]? with _ | x
    · rw [List.getD_eq_getElem?_getD, h]
      rfl
    · rw [List.getD_eq_getElem?_getD, h]
      exact hcells x (List.getElem?_mem h)

theorem doubleQuotesL_eq_self (l : List Char) (h : ∀ c ∈ l, c ≠ '"') :
    doubleQuotesL l = l := by
  induction l with
  | nil => rfl
  | cons c rest ih =>
    have hc : c ≠ '"' := h c (List.mem_cons_self c rest)
    rw [show doubleQuotesL (c :: rest) = c :: doubleQuotesL rest by
        simp [doubleQuotesL, hc],
      ih fun x hx => h x (List.mem_cons_of_mem c hx)]

/-- Doubling the quotes of a field does not change whether it contains a
quote, a comma or a newline. -/
theorem hasSpecialL_doubleQuotesL (l : List Char) :
    hasSpecialL (doubleQuotesL l) = hasSpecialL l := by
  induction l with
  | nil => rfl
  | cons c rest ih =>
    by_cases hc : c = '"'
    · subst hc
      simp [doubleQuotesL, hasSpecialL]
    · rw [show doubleQuotesL (c :: rest) = c :: doubleQuotesL rest by
          simp [doubleQuotesL, hc]]
      simp only [hasSpecialL, List.any_cons] at ih ⊢
      rw [ih]

/-- The header-map fold records the rightmost column bearing a given
(trimmed) name: appending a column overwrites any earlier entry with the
same name. -/
theorem headerIndexAux_append (field col : String) : ∀ (header : List String)
    (i : Nat) (acc : Option Nat),
    headerIndexAux field (header ++ [col]) i acc =
      if trimS col = field then some (i + header.length)
      else headerIndexAux field header i acc := by
  intro header
  induction header with
  | nil =>
    intro i acc
    by_cases h : trimS col = field <;> simp [headerIndexAux, h]
  | cons hcol t ih =>
    intro i acc
    rw [show (hcol :: t) ++ [col] = hcol :: (t ++ [col]) by rfl]
    rw [show headerIndexAux field (hcol :: (t ++ [col])) i acc =
        headerIndexAux field (t ++ [col]) (i + 1)
          (if trimS hcol = field then some i else acc) by rfl]
    rw [ih (i + 1) (if trimS hcol = field then some i else acc)]
    by_cases h : trimS col = field
    · simp [h, headerIndexAux]
      omega
    · simp [h, headerIndexAux]

/-!  Claim theorems. -/

/-- Claim C7: the row tokenizer implements the escaped-quote rule: a quote
toggles the in-quoted-span state, except that a quote inside a quoted span
immediately followed by another quote contributes one literal quote to the
current cell without toggling the state; concretely, tokenizing
`a,"b""c",d` yields exactly the cells `a`, `b"c`, `d`. -/
theorem c7_escaped_quote_rule :
    (∀ rest cur : List Char,
      parseRowAux ('"' :: '"' :: rest) true cur = parseRowAux rest true ('"' :: cur))
    ∧ (∀ (c : Char) (rest cur : List Char), c ≠ '"' →
        parseRowAux ('"' :: c :: rest) true cur = parseRowAux (c :: rest) false cur)
    ∧ (∀ rest cur : List Char,
        parseRowAux ('"' :: rest) false cur = parseRowAux rest true cur)
    ∧ robustParseCsvRow "a,\"b\"\"c\",d" = ["a", "b\"c", "d"] :=
  ⟨parseRowAux_escaped_pair,
   fun c rest cur h => parseRowAux_quote_close c rest cur h,
   parseRowAux_quote_open,
   by rfl⟩

/-- Witness for C7: one toggling step with a concrete non-quote follower,
and the concrete tokenization from the claim. -/
theorem c7_escaped_quote_rule_witness :
    parseRowAux ['"', 'x'] true [] = parseRowAux ['x'] false []
    ∧ robustParseCsvRow "a,\"b\"\"c\",d" = ["a", "b\"c", "d"] :=
  ⟨c7_escaped_quote_rule.2.1 'x' [] [] (by decide),
   c7_escaped_quote_rule.2.2.2⟩

/-- Claim C8, corrected.  The claim as stated — for every single-line row
with no quote characters, tokenizing and rejoining with the comma delimiter
reproduces the trimmed original row — fails, because the tokenizer trims
every cell, not just the ends of the row: whitespace adjacent to a comma is
lost.  The row `a ,b` has no quotes and equals its own trim, yet rejoins
to `a,b`. -/
theorem c8_counterexample :
    (∀ c ∈ ("a ,b" : String).data, c ≠ '"')
    ∧ joinChar ',' (robustParseCsvRowChars ("a ,b" : String).data) ≠
        trimChars ("a ,b" : String).data := by
  constructor
  · decide
  · decide

/-- Claim C8, amended: for every single-line row with no quote characters,
tokenizing is comma-splitting with per-cell trimming; when every
comma-separated segment of the row is already free of leading and trailing
whitespace, rejoining the cells with the comma delimiter reproduces the
original row exactly. -/
theorem c8_tokenize_rejoin (row : List Char) (hq : ∀ c ∈ row, c ≠ '"') :
    robustParseCsvRowChars row = (splitChar ',' row).map trimChars
    ∧ ((∀ s ∈ splitChar ',' row, trimChars s = s) →
        joinChar ',' (robustParseCsvRowChars row) = row) := by
  constructor
  · exact parseRowAux_no_quote row [] hq
  · intro hseg
    unfold robustParseCsvRowChars
    rw [parseRowAux_no_quote row [] hq]
    unfold splitChar at hseg
    rw [map_trim_eq_self hseg]
    simpa using joinChar_splitCharAux ',' row []

/-- Witness for C8 (amended): a row with interior whitespace in a cell but
none adjacent to the delimiter rejoins to itself. -/
theorem c8_tokenize_rejoin_witness :
    joinChar ',' (robustParseCsvRowChars ("a b,cd" : String).data) =
      ("a b,cd" : String).data :=
  (c8_tokenize_rejoin ("a b,cd" : String).data (by decide)).2 (by decide)

/-- Claim C2, corrected.  The claim as stated — every one of the six emitted
columns is escaped when its value contains a comma, a quote or a newline —
fails: `handleDownloadAllResults` applies `formatCsvField` only to the
message column.  For an outcome whose beneficiary name is `a,b`, the first
emitted field is the raw `a,b`, although the escaping required by the claim
would produce the distinct field `"a,b"`. -/
theorem c2_counterexample :
    allResultsFields ⟨true, "ok", some ⟨"a,b", "X", "1", "2"⟩⟩ =
      ["a,b", "X", "1", "2", "Success", "ok"]
    ∧ formatCsvField "a,b" = "\"a,b\""
    ∧ ("a,b" : String) ≠ "\"a,b\"" :=
  ⟨by rfl, by rfl, by decide⟩

/-- Claim C2, amended: in the all-results serialization the four data
columns and the status column are emitted raw, and only the message column
obeys the escaping rule — if the message contains a comma, a quote or a
newline it is wrapped in double quotes with every internal quote doubled,
otherwise it is emitted unchanged. -/
theorem c2_all_results_escaping (r : VerificationResultData) :
    allResultsFields r =
      [(r.data.map AccountDetails.beneficiaryName).getD "",
       (r.data.map AccountDetails.bankName).getD "",
       (r.data.map AccountDetails.accountNumber).getD "",
       (r.data.map AccountDetails.bvn).getD "",
       statusString r.success,
       if hasSpecialL r.message.data then
         "\"" ++ (⟨doubleQuotesL r.message.data⟩ : String) ++ "\""
       else r.message] := by
  unfold allResultsFields formatCsvField
  rw [hasSpecialL_doubleQuotesL]
  by_cases hs : hasSpecialL r.message.data
  · rw [if_pos hs, if_pos hs]
  · rw [if_neg hs, if_neg hs]
    have hnq : ∀ c ∈ r.message.data, c ≠ '"' := by
      intro c hc hceq
      subst hceq
      have : hasSpecialL r.message.data = true := by
        unfold hasSpecialL
        exact List.any_eq_true.2 ⟨'"', hc, by decide⟩
      exact hs this
    rw [show (⟨doubleQuotesL r.message.data⟩ : String) = r.message by
      rw [doubleQuotesL_eq_self r.message.data hnq]]

/-- Claim C3, corrected.  The claim (following the specification's words)
says a record whose four fields are all non-empty after trimming is
dropped; the code does the opposite — it keeps every record with at least
one non-empty field and drops only all-empty records.  The row
`Ada,Zenith,0123456789,12345678901`, all four fields non-empty, is
accepted. -/
theorem c3_counterexample :
    handleBulkUpload
        "beneficiaryName,bankName,accountNumber,bvn\nAda,Zenith,0123456789,12345678901" =
      .accepted [⟨"Ada", "Zenith", "0123456789", "12345678901"⟩]
    ∧ trimS "Ada" ≠ "" ∧ trimS "Zenith" ≠ "" ∧ trimS "0123456789" ≠ ""
    ∧ trimS "12345678901" ≠ "" :=
  ⟨by rfl, by decide, by decide, by decide, by decide⟩

/-- Claim C3, amended: for a data row whose cell count equals the header's,
the parser builds the record by looking up each required field's column
index (a missing lookup yields the empty string), and the record is kept
exactly when at least one of its four fields is non-empty after trimming;
a kept record appears in the accepted records of any batch containing the
row. -/
theorem c3_row_to_record (header : List String) (rowNum : Nat) (line : String)
    (hlen : (robustParseCsvRow line).length = header.length) :
    rowStep header rowNum line =
      (if accountNonEmpty (buildAccount header (robustParseCsvRow line)) then
        .record (buildAccount header (robustParseCsvRow line))
      else .blank)
    ∧ (accountNonEmpty (buildAccount header (robustParseCsvRow line)) = true →
        ∀ pre suf, buildAccount header (robustParseCsvRow line) ∈
          acceptedAccounts header (pre ++ line :: suf)) := by
  constructor
  · unfold rowStep
    rw [if_neg (by omega)]
  · intro hne pre suf
    rw [acceptedAccounts_eq_filterMap]
    refine List.mem_filterMap.2 ⟨line, by simp, ?_⟩
    unfold recordOf
    rw [if_neg (by omega), if_pos hne]

/-- Witness for C3 (amended): the claim's own example row is kept and
appears in the accepted records. -/
theorem c3_row_to_record_witness :
    rowStep requiredHeaders 2 "Ada,Zenith,0123456789,12345678901" =
      .record ⟨"Ada", "Zenith", "0123456789", "12345678901"⟩
    ∧ (⟨"Ada", "Zenith", "0123456789", "12345678901"⟩ : AccountDetails) ∈
        acceptedAccounts requiredHeaders ["Ada,Zenith,0123456789,12345678901"] := by
  have h := c3_row_to_record requiredHeaders 2 "Ada,Zenith,0123456789,12345678901"
    (by decide)
  constructor
  · rw [h.1]
    rfl
  · exact h.2 (by decide) [] []

/-- Claim C4, corrected.  A data row with the header's cell count and
all-empty cells indeed produces no record and no error, but the batch is
not processed "as if the row were absent": the row keeps its position in
the row numbering, so a later malformed row is reported with a row number
that counts the blank row.  With a blank second row, the 5-cell third row
is reported as row 3; deleting the blank row reports it as row 2. -/
theorem c4_counterexample :
    robustParseCsvRow ",,," = ["", "", "", ""]
    ∧ handleBulkUpload "beneficiaryName,bankName,accountNumber,bvn\n,,,\na,b,c,d,e" =
        .parseError "Could not parse the CSV file due to formatting issues:\n\nRow 3: Mismatched column count. Expected 4, but found 5."
    ∧ handleBulkUpload "beneficiaryName,bankName,accountNumber,bvn\na,b,c,d,e" =
        .parseError "Could not parse the CSV file due to formatting issues:\n\nRow 2: Mismatched column count. Expected 4, but found 5."
    ∧ handleBulkUpload "beneficiaryName,bankName,accountNumber,bvn\n,,,\na,b,c,d,e" ≠
        handleBulkUpload "beneficiaryName,bankName,accountNumber,bvn\na,b,c,d,e" :=
  ⟨by rfl, by rfl, by rfl, by decide⟩

/-- Claim C4, amended: a data row whose cell count equals the header's and
whose cells are all empty after trimming is silently omitted — it produces
no accepted record and no error, and the accepted records of the batch are
those obtained with the row deleted — but the row still occupies a row
number, so structural-error messages for later rows count it. -/
theorem c4_blank_row_dropped (header : List String) (line : String)
    (hlen : (robustParseCsvRow line).length = header.length)
    (hcells : ∀ cell ∈ robustParseCsvRow line, trimS cell = "") :
    (∀ n, rowStep header n line = .blank)
    ∧ ∀ pre suf, acceptedAccounts header (pre ++ line :: suf) =
        acceptedAccounts header (pre ++ suf) := by
  have hempty : accountNonEmpty (buildAccount header (robustParseCsvRow line)) = false := by
    unfold accountNonEmpty buildAccount
    rw [trimS_getField _ hcells, trimS_getField _ hcells, trimS_getField _ hcells,
      trimS_getField _ hcells]
    rfl
  constructor
  · intro n
    unfold rowStep
    rw [if_neg (by omega), if_neg (by simp [hempty])]
  · intro pre suf
    have hrec : recordOf header line = none := by
      unfold recordOf
      rw [if_neg (by omega), if_neg (by simp [hempty])]
    rw [acceptedAccounts_eq_filterMap, acceptedAccounts_eq_filterMap,
      List.filterMap_append, List.filterMap_append, List.filterMap_cons, hrec]

/-- Witness for C4 (amended): the all-empty row `,,,` against the required
four-column header is dropped and leaves the accepted records unchanged. -/
theorem c4_blank_row_dropped_witness :
    rowStep requiredHeaders 2 ",,," = .blank
    ∧ acceptedAccounts requiredHeaders [",,,", "Ada,Zenith,0123456789,12345678901"] =
        acceptedAccounts requiredHeaders ["Ada,Zenith,0123456789,12345678901"] := by
  have h := c4_blank_row_dropped requiredHeaders ",,," (by decide) (by decide)
  exact ⟨h.1 2, h.2 [] ["Ada,Zenith,0123456789,12345678901"]⟩

/-- Claim C5, confirmed: when the header passes the required-field check and
at least one data row's cell count differs from the header's, the whole
operation fails with the structural error message; that message lists, for
every such row, its 1-based row number over the filtered lines (header =
row 1, the source's `index + 2`) with the expected and actual counts; and
no record of the batch is accepted (hence none is verified). -/
theorem c5_structural_row_errors (text : String)
    (h2 : 2 ≤ (toLines text).length)
    (hmiss : missingHeadersOf text = [])
    (herr : structuralErrorsOf text ≠ []) :
    handleBulkUpload text = .parseError (parseErrorMessage text)
    ∧ structuralErrorsOf text = (dataLinesOf text).enum.filterMap (fun p =>
        if (robustParseCsvRow p.2).length ≠ (headerOf text).length then
          some (rowErrMsg (p.1 + 2) (headerOf text).length
            (robustParseCsvRow p.2).length)
        else none)
    ∧ ∀ accs, handleBulkUpload text ≠ .accepted accs := by
  have htext : text ≠ "" := by
    intro h
    rw [h, show (toLines "").length = 0 by rfl] at h2
    omega
  have hmain : handleBulkUpload text = .parseError (parseErrorMessage text) := by
    unfold handleBulkUpload parseStage
    rw [if_neg htext, if_neg (by omega), if_neg (by simp [hmiss]), if_pos herr]
    rfl
  refine ⟨hmain, structuralErrors_eq _ _, fun accs h => ?_⟩
  rw [hmain] at h
  exact BulkOutcome.noConfusion h

/-- Witness for C5: a 5-cell data row against the 4-cell required header is
rejected naming row 2, expected 4, actual 5. -/
theorem c5_structural_row_errors_witness :
    handleBulkUpload "beneficiaryName,bankName,accountNumber,bvn\na,b,c,d,e" =
      .parseError "Could not parse the CSV file due to formatting issues:\n\nRow 2: Mismatched column count. Expected 4, but found 5." := by
  have h := (c5_structural_row_errors
    "beneficiaryName,bankName,accountNumber,bvn\na,b,c,d,e"
    (by decide) (by rfl) (by decide)).1
  rw [h]
  rfl

/-- Claim C6, confirmed: for an input with at least two non-blank lines
whose tokenized first line lacks one of the four required field names,
parsing fails with the header error message, which names exactly the
missing required fields (`missingHeadersOf` is by definition the sublist of
`requiredHeaders` absent from the header), and no outcome with accepted
records is produced. -/
theorem c6_missing_header (text : String)
    (h2 : 2 ≤ (toLines text).length)
    (hmiss : missingHeadersOf text ≠ []) :
    handleBulkUpload text = .headerError (headerErrorMessage text)
    ∧ headerErrorMessage text = "Invalid CSV header. Missing required columns: " ++
        String.intercalate ", "
          (requiredHeaders.filter fun rh => !((headerOf text).contains rh)) ++ "."
    ∧ ∀ accs, handleBulkUpload text ≠ .accepted accs := by
  have htext : text ≠ "" := by
    intro h
    rw [h, show (toLines "").length = 0 by rfl] at h2
    omega
  have hmain : handleBulkUpload text = .headerError (headerErrorMessage text) := by
    unfold handleBulkUpload parseStage
    rw [if_neg htext, if_neg (by omega), if_pos hmiss]
    rfl
  refine ⟨hmain, rfl, fun accs h => ?_⟩
  rw [hmain] at h
  exact BulkOutcome.noConfusion h

/-- Witness for C6: an input whose header lacks `bvn` fails with a message
naming `bvn`. -/
theorem c6_missing_header_witness :
    handleBulkUpload "beneficiaryName,bankName,accountNumber\nAda,Zenith,0123456789" =
      .headerError "Invalid CSV header. Missing required columns: bvn." := by
  have h := (c6_missing_header
    "beneficiaryName,bankName,accountNumber\nAda,Zenith,0123456789"
    (by decide) (by decide)).1
  rw [h]
  rfl

/-- Claim C9, confirmed: the bulk verification loop maps each record of the
batch, in input order, to one outcome; a record whose verification call
fails contributes — at its own position — a failed outcome carrying the
submitted record and the error-derived message, while a record whose call
succeeds contributes that call's outcome; no per-record failure removes or
displaces the outcomes of the other records. -/
theorem c9_per_record_failure_isolated
    (verify : AccountDetails → Except JsThrown VerificationResultData)
    (accounts : List AccountDetails) (i : Nat) (a : AccountDetails)
    (ha : accounts[i]? = some a) :
    (runBulkVerification verify accounts).length = accounts.length
    ∧ (∀ e, verify a = .error e →
        (runBulkVerification verify accounts)[i]? =
          some ⟨false, thrownMessage e, some a⟩)
    ∧ (∀ r, verify a = .ok r →
        (runBulkVerification verify accounts)[i]? = some r) := by
  refine ⟨List.length_map accounts _, fun e he => ?_, fun r hr => ?_⟩
  · unfold runBulkVerification
    rw [List.getElem?_map, ha]
    simp [he]
  · unfold runBulkVerification
    rw [List.getElem?_map, ha]
    simp [hr]

/-- Witness for C9: with a verifier that throws an `Error` with message
`boom` on the first record, the first result slot holds the failed outcome
carrying that record and message. -/
theorem c9_per_record_failure_isolated_witness :
    (runBulkVerification
        (fun a => if a.accountNumber = "1" then .error (.errObj "boom")
          else .ok ⟨true, "verified", some a⟩)
        [⟨"A", "B", "1", "2"⟩, ⟨"C", "D", "3", "4"⟩])[0]? =
      some ⟨false, "boom", some ⟨"A", "B", "1", "2"⟩⟩ := by
  have h := c9_per_record_failure_isolated
    (fun a => if a.accountNumber = "1" then .error (.errObj "boom")
      else .ok ⟨true, "verified", some a⟩)
    [⟨"A", "B", "1", "2"⟩, ⟨"C", "D", "3", "4"⟩] 0 ⟨"A", "B", "1", "2"⟩ rfl
  exact h.2.1 (.errObj "boom") (by rfl)

/-- Claim C10, confirmed: the header-map fold lets a later column with the
same (trimmed) name overwrite an earlier one, so the lookup returns the
rightmost matching column; end to end, a header listing `accountNumber`
twice yields records whose account number comes from the rightmost such
column. -/
theorem c10_rightmost_column_wins :
    (∀ (header : List String) (field col : String) (i : Nat) (acc : Option Nat),
      headerIndexAux field (header ++ [col]) i acc =
        if trimS col = field then some (i + header.length)
        else headerIndexAux field header i acc)
    ∧ handleBulkUpload
        "beneficiaryName,bankName,accountNumber,bvn,accountNumber\nAda,Zenith,111,222,333" =
      .accepted [⟨"Ada", "Zenith", "333", "222"⟩] :=
  ⟨fun header field col i acc => headerIndexAux_append field col header i acc,
   by rfl⟩

/-- Claim C1, corrected.  The claim as stated fails: the duplicate check
skips the literal key `-`, so two accepted records whose account number and
bank name are both empty after trimming do share the same
(account number, bank name) pair — here `("", "")` — and the batch is
still accepted instead of being rejected with a duplicate error. -/
theorem c1_counterexample :
    handleBulkUpload "beneficiaryName,bankName,accountNumber,bvn\nA,,,\nB,,," =
      .accepted [⟨"A", "", "", ""⟩, ⟨"B", "", "", ""⟩]
    ∧ lowerS (trimS (AccountDetails.accountNumber ⟨"A", "", "", ""⟩)) =
        lowerS (trimS (AccountDetails.accountNumber ⟨"B", "", "", ""⟩))
    ∧ lowerS (trimS (AccountDetails.bankName ⟨"A", "", "", ""⟩)) =
        lowerS (trimS (AccountDetails.bankName ⟨"B", "", "", ""⟩)) :=
  ⟨by rfl, by rfl, by rfl⟩

/-- Claim C1, amended: records whose account number and bank name are both
empty after trimming are exempt from the duplicate check; apart from them,
no two accepted records share the same duplicate key (trimmed account
number and bank name joined by `-`, lowercased) — in particular no two
share the same trimmed, lowercased (account number, bank name) pair, since
equal pairs give equal keys; and whenever the parsed records contain a
repeated non-exempt key, the whole batch is rejected with the duplicate
error naming every repeated key, and no record is verified. -/
theorem c1_duplicate_rejection (text : String) :
    (∀ accounts, handleBulkUpload text = .accepted accounts → (keysOf accounts).Nodup)
    ∧ (∀ accounts, parseStage text = .ok accounts → ¬ (keysOf accounts).Nodup →
        handleBulkUpload text = .duplicateError (duplicateMessage accounts)
        ∧ ∀ accs, handleBulkUpload text ≠ .accepted accs)
    ∧ (∀ a b : AccountDetails,
        lowerS (trimS a.accountNumber) = lowerS (trimS b.accountNumber) →
        lowerS (trimS a.bankName) = lowerS (trimS b.bankName) →
        dupKey a = dupKey b) := by
  refine ⟨?_, ?_, dupKey_eq_of_pair_eq⟩
  · intro accounts h
    unfold handleBulkUpload at h
    cases hps : parseStage text with
    | error e =>
      rw [hps] at h
      exact absurd h (by cases e <;> simp [ParseFailure.toOutcome])
    | ok accs =>
      rw [hps] at h
      dsimp only at h
      by_cases hd : duplicateKeys accs ≠ []
      · rw [if_pos hd] at h
        exact absurd h (by simp)
      · rw [if_neg hd] at h
        injection h with h1
        subst h1
        exact (duplicateKeys_eq_nil_iff _).1 (not_ne_iff.1 hd)
  · intro accounts hok hnodup
    have hne : duplicateKeys accounts ≠ [] :=
      fun hnil => hnodup ((duplicateKeys_eq_nil_iff accounts).1 hnil)
    have hmain : handleBulkUpload text = .duplicateError (duplicateMessage accounts) := by
      unfold handleBulkUpload
      rw [hok]
      dsimp only
      rw [if_pos hne]
    refine ⟨hmain, fun accs h => ?_⟩
    rw [hmain] at h
    exact BulkOutcome.noConfusion h

/-- Witness for C1 (amended): two rows with the same account number and the
same bank name up to case, other fields different, are rejected with the
duplicate error naming the shared key. -/
theorem c1_duplicate_rejection_witness :
    handleBulkUpload
        "beneficiaryName,bankName,accountNumber,bvn\nAda,Zenith,0123,1\nBob,zenith,0123,2" =
      .duplicateError "Duplicate entries found in the file. Please remove them and try again. Duplicates: Account 0123 at zenith." := by
  have h := ((c1_duplicate_rejection
      "beneficiaryName,bankName,accountNumber,bvn\nAda,Zenith,0123,1\nBob,zenith,0123,2").2.1
    [⟨"Ada", "Zenith", "0123", "1"⟩, ⟨"Bob", "zenith", "0123", "2"⟩]
    (by rfl) (by decide)).1
  rw [h]
  rfl

end AccountValidation
